import Mathlib

set_option linter.unusedVariables false

/-!
Shallow embedding of the go-envoy-keyauth Envoy HTTP filter
(package `filter`: filter.go, cookie.go, parser.go), together with
proofs about its credential extraction, exclusion rules, rejection
contract, cookie handling and configuration merging.

Go strings are modelled as lists of characters (`Str`); Go maps
`map[string]string` as association lists where insertion overwrites the
previous binding of the same key, matching Go map assignment semantics.
-/

/-- Go `string`, modelled as a list of characters. -/
abbrev Str := List Char

/-- Coerce a Lean string literal to the `Str` model. -/
def str (s : String) : Str := s.data

/-- Go `map[string]string`: association list with overwrite-on-insert. -/
abbrev StrMap := List (Str × Str)

/-- Go map assignment `m[k] = v`: overwrites any previous binding of `k`. -/
def mapSet (m : StrMap) (k v : Str) : StrMap :=
  (k, v) :: m.filter (fun p => ¬ p.1 = k)

/-- Go map read `m[k]` (with its `ok` flag folded into `Option`). -/
def mapLookup (m : StrMap) (k : Str) : Option Str :=
  (m.find? (fun p => p.1 = k)).map (fun p => p.2)

/-- Go `strings.Split(s, sep)` for a one-character separator: always
returns at least one part, empty parts included. -/
def splitOnChar (sep : Char) : Str → List Str
  | [] => [[]]
  | c :: rest =>
    if c = sep then [] :: splitOnChar sep rest
    else
      match splitOnChar sep rest with
      | [] => [[c]]
      | p :: ps => (c :: p) :: ps

/-- Go `strings.SplitN(s, sep, 2)` for a one-character separator: the part
before the first `sep`, and (when `sep` occurs) the remainder after it. -/
def splitN2 (sep : Char) : Str → Str × Option Str
  | [] => ([], none)
  | c :: rest =>
    if c = sep then ([], some rest)
    else
      match splitN2 sep rest with
      | (pre, tl) => (c :: pre, tl)

/-- Go `strings.TrimSpace`: drop leading and trailing whitespace. -/
def trimSpace (s : Str) : Str :=
  ((s.dropWhile Char.isWhitespace).reverse.dropWhile Char.isWhitespace).reverse

/-- Base-10 digit characters of a natural number (helper for `natChars`),
with enough fuel to consume every digit. -/
def natCharsFuel : Nat → Nat → Str → Str
  | 0, _, acc => acc
  | fuel + 1, n, acc =>
    let d := Char.ofNat (48 + n % 10)
    if n < 10 then d :: acc else natCharsFuel fuel (n / 10) (d :: acc)

/-- Base-10 rendering of a natural number, as `fmt.Sprintf("%d", n)`. -/
def natChars (n : Nat) : Str := natCharsFuel (n + 1) n []

/-- Base-10 rendering of a Go `int`, as `fmt.Sprintf("%d", i)`. -/
def intChars (i : Int) : Str :=
  if i < 0 then '-' :: natChars (-i).toNat else natChars i.toNat

/-- `AuthSource` (filter.go): where the API key was found. -/
inductive AuthSource
  | header
  | query
  | cookie
  | none
deriving DecidableEq, Repr

/-- `CookieSettings` (cookie.go): per-configuration cookie policy. -/
structure CookieSettings where
  enabled : Bool
  maxAge : Int
  domain : Str
  path : Str
  secure : Bool
  httpOnly : Bool
  sameSite : Str
  saveToCookie : Bool
deriving Repr

/-- `DefaultCookieSettings` (cookie.go). -/
def DefaultCookieSettings : CookieSettings :=
  { enabled := true
    maxAge := (86400 : Int) * 30
    domain := []
    path := str "/"
    secure := true
    httpOnly := true
    sameSite := str "Lax"
    saveToCookie := true }

/-- `ClusterConfig`: per-cluster configuration (exclude paths and the
`Exclude` flag initialised by `Parse`). -/
structure ClusterConfig where
  excludePaths : List Str
  exclude : Bool
deriving DecidableEq, Repr

/-- Go `map[string]*ClusterConfig`. -/
abbrev ClusterMap := List (Str × ClusterConfig)

/-- Read of a `map[string]*ClusterConfig`. -/
def clusterLookup (m : ClusterMap) (k : Str) : Option ClusterConfig :=
  (m.find? (fun p => p.1 = k)).map (fun p => p.2)

/-- `Config`: the filter configuration.  `KeySource.GetUsername` is
modelled as a function from key to `Option` identity (`none` is the
error return); the field is an `Option` so that `Merge`'s nil test on
`KeySource` is expressible — a parsed configuration always carries
`some` lookup, since `Parse` fails when the key source cannot be built. -/
structure Config where
  apiKeyHeader : Str
  usernameHeader : Str
  apiKeyQueryParam : Str
  apiKeyCookie : Str
  authPriority : List Str
  excludePaths : List Str
  clusterConfigs : ClusterMap
  cookieSettings : CookieSettings
  keySource : Option (Str → Option Str)

/-- The request-header map handed to `DecodeHeaders`: named headers plus
the `:path` pseudo-header exposed by `header.Path()`. -/
structure RequestHeaders where
  headers : StrMap
  path : Str

/-- `header.Get(name)` on the request-header map. -/
def reqGet (req : RequestHeaders) (name : Str) : Option Str :=
  mapLookup req.headers name

/- ---------------------------------------------------------------------
Query-string parsing (filter.go)
--------------------------------------------------------------------- -/

/-- `getQueryStringFromPath` (filter.go): the portion after the first `?`,
or empty when there is none. -/
def getQueryStringFromPath (path : Str) : Str :=
  if '?' ∈ path then (path.dropWhile (fun c => ¬ c = '?')).tail else []

/-- `parseQueryParameter` (filter.go): one `k=v` (or bare `k`) parameter
added to the map; empty parameters are skipped. -/
def parseQueryParameter (param : Str) (result : StrMap) : StrMap :=
  if param = [] then result
  else
    match splitN2 '=' param with
    | (k, some v) => mapSet result k v
    | (k, Option.none) => mapSet result k []

/-- `parseQueryString` (filter.go): split on `&`, fold the parameters. -/
def parseQueryString (queryString : Str) : StrMap :=
  (splitOnChar '&' queryString).foldl (fun m p => parseQueryParameter p m) []

/-- `ExtractQueryParams` (filter.go). -/
def ExtractQueryParams (path : Str) : StrMap :=
  let queryString := getQueryStringFromPath path
  if queryString = [] then [] else parseQueryString queryString

/- ---------------------------------------------------------------------
Cookie parsing and construction (cookie.go)
--------------------------------------------------------------------- -/

/-- The loop body of `parseCookies` (cookie.go): trim the part, skip it
when empty, split on the first `=`; parts without `=` are skipped, and a
`k=v` part overwrites any earlier binding of `k` (Go map semantics). -/
def cookieStep (cookies : StrMap) (part : Str) : StrMap :=
  let p := trimSpace part
  if p = [] then cookies
  else
    match splitN2 '=' p with
    | (k, some v) => mapSet cookies k v
    | (_, Option.none) => cookies

/-- `parseCookies` (cookie.go): split the `Cookie` header on `;` and fold
the parts. -/
def parseCookies (cookieHeader : Str) : StrMap :=
  (splitOnChar ';' cookieHeader).foldl cookieStep []

/-- The cookie string built by `SetCookie` (cookie.go):
`name=value; Max-Age=N; Path=P` plus the optional attributes in the
source's order. -/
def buildCookieValue (name value : Str) (settings : CookieSettings) : Str :=
  name ++ str "=" ++ value
    ++ str "; Max-Age=" ++ intChars settings.maxAge
    ++ str "; Path=" ++ settings.path
    ++ (if ¬ settings.domain = [] then str "; Domain=" ++ settings.domain else [])
    ++ (if settings.secure then str "; Secure" else [])
    ++ (if settings.httpOnly then str "; HttpOnly" else [])
    ++ (if ¬ settings.sameSite = [] then str "; SameSite=" ++ settings.sameSite else [])

/-- Response headers: `header.Add` appends, so a name may repeat. -/
abbrev RespHeaders := List (Str × Str)

/-- `header.Add(name, value)` on the response-header map. -/
def respAdd (resp : RespHeaders) (name value : Str) : RespHeaders :=
  resp ++ [(name, value)]

/-- `SetCookie` (cookie.go): when cookies are enabled, add a `Set-Cookie`
response header with the built cookie string. -/
def SetCookie (resp : RespHeaders) (name value : Str) (settings : CookieSettings) :
    RespHeaders :=
  if ¬ settings.enabled then resp
  else respAdd resp (str "Set-Cookie") (buildCookieValue name value settings)

/-- `SaveAPIKeyToCookie` (cookie.go): issue the cookie unless cookies are
disabled, no cookie name is configured, `SaveToCookie` is off, or the key
already came from a cookie. -/
def SaveAPIKeyToCookie (config : Config) (resp : RespHeaders) (apiKey : Str)
    (authSource : AuthSource) : RespHeaders :=
  if ¬ config.cookieSettings.enabled ∨ config.apiKeyCookie = [] then resp
  else if ¬ config.cookieSettings.saveToCookie then resp
  else if authSource = AuthSource.cookie then resp
  else SetCookie resp config.apiKeyCookie apiKey config.cookieSettings

/- ---------------------------------------------------------------------
Credential extraction (filter.go)
--------------------------------------------------------------------- -/

/-- `getHeaderAPIKey` (filter.go): the configured header's value, with
the Go `(value, ok)` pair kept as is; disabled when the header name is
empty. -/
def getHeaderAPIKey (config : Config) (req : RequestHeaders) : Str × Bool :=
  if config.apiKeyHeader = [] then ([], false)
  else
    match reqGet req config.apiKeyHeader with
    | some headerKey => (headerKey, ¬ headerKey = [])
    | Option.none => ([], false)

/-- `getQueryAPIKey` (filter.go): the configured query parameter's value;
disabled when the parameter name is empty. -/
def getQueryAPIKey (config : Config) (req : RequestHeaders) : Str × Bool :=
  if config.apiKeyQueryParam = [] then ([], false)
  else
    match mapLookup (ExtractQueryParams req.path) config.apiKeyQueryParam with
    | some queryValue => (queryValue, ¬ queryValue = [])
    | Option.none => ([], false)

/-- `getCookieAPIKey` (filter.go): the configured cookie's value from the
parsed `Cookie` header; disabled when the cookie name is empty. -/
def getCookieAPIKey (config : Config) (req : RequestHeaders) : Str × Bool :=
  if config.apiKeyCookie = [] then ([], false)
  else
    match reqGet req (str "Cookie") with
    | some cookieHeader =>
      if cookieHeader = [] then ([], false)
      else
        match mapLookup (parseCookies cookieHeader) config.apiKeyCookie with
        | some value => (value, ¬ value = [])
        | Option.none => ([], false)
    | Option.none => ([], false)

/-- The loop body of `extractAPIKeyByPriority` (filter.go), recursing on
the remaining priority list; source kinds other than
`header`/`query`/`cookie` are skipped by the `switch`. -/
def extractLoop (config : Config) (req : RequestHeaders) : List Str → Str × AuthSource
  | [] => ([], AuthSource.none)
  | source :: rest =>
    if source = str "header" then
      match getHeaderAPIKey config req with
      | (apiKey, true) => (apiKey, AuthSource.header)
      | (_, false) => extractLoop config req rest
    else if source = str "query" then
      match getQueryAPIKey config req with
      | (apiKey, true) => (apiKey, AuthSource.query)
      | (_, false) => extractLoop config req rest
    else if source = str "cookie" then
      match getCookieAPIKey config req with
      | (apiKey, true) => (apiKey, AuthSource.cookie)
      | (_, false) => extractLoop config req rest
    else extractLoop config req rest

/-- `extractAPIKeyByPriority` (filter.go). -/
def extractAPIKeyByPriority (config : Config) (req : RequestHeaders) :
    Str × AuthSource :=
  extractLoop config req config.authPriority

/- ---------------------------------------------------------------------
Exclusion rules (filter.go)
--------------------------------------------------------------------- -/

/-- `getPathWithoutQuery` (filter.go): everything before the first `?`. -/
def getPathWithoutQuery (path : Str) : Str :=
  path.takeWhile (fun c => ¬ c = '?')

/-- `isPathInExcludeList` (filter.go): some configured prefix is a string
prefix of the path. -/
def isPathInExcludeList (path : Str) (excludePaths : List Str) : Bool :=
  excludePaths.any (fun excludePath => excludePath.isPrefixOf path)

/-- `isPathExcludedGlobally` (filter.go). -/
def isPathExcludedGlobally (config : Config) (pathOnly : Str) : Bool :=
  isPathInExcludeList pathOnly config.excludePaths

/-- `isPathExcludedForCluster` (filter.go): false for the empty cluster
name, and for clusters without a configured entry. -/
def isPathExcludedForCluster (config : Config) (pathOnly : Str)
    (clusterName : Str) : Bool :=
  if clusterName = [] then false
  else
    match clusterLookup config.clusterConfigs clusterName with
    | some clusterConfig => isPathInExcludeList pathOnly clusterConfig.excludePaths
    | Option.none => false

/-- `shouldSkipAuth` (filter.go). -/
def shouldSkipAuth (config : Config) (path : Str) (clusterName : Str) : Bool :=
  let pathOnly := getPathWithoutQuery path
  if isPathExcludedGlobally config pathOnly then true
  else if isPathExcludedForCluster config pathOnly clusterName then true
  else false

/- ---------------------------------------------------------------------
Rejection contract and per-request decision (filter.go)
--------------------------------------------------------------------- -/

/-- `api.StatusType` values used by the filter. -/
inductive StatusType
  | Continue
  | LocalReply
deriving DecidableEq, Repr

/-- The local reply sent by `SendLocalReply`: status code, body, and
response headers (each name with its list of values). -/
structure LocalReplyData where
  status : Nat
  body : Str
  headers : List (Str × List Str)
deriving DecidableEq, Repr

/-- `createAuthErrorHeaders` (filter.go). -/
def createAuthErrorHeaders : List (Str × List Str) :=
  [(str "content-type", [str "text/plain"]),
   (str "www-authenticate", [str "X-API-Key"])]

/-- `rejectWithUnauthorized` (filter.go): a 401 local reply with the
standard auth-error headers. -/
def rejectWithUnauthorized (message : Str) : LocalReplyData :=
  { status := 401, body := message, headers := createAuthErrorHeaders }

/-- `buildMissingAPIKeyMessage` (filter.go). -/
def buildMissingAPIKeyMessage (config : Config) : Str := str "Forbidden"

/-- `rejectMissingAPIKey` (filter.go). -/
def rejectMissingAPIKey (config : Config) : LocalReplyData :=
  rejectWithUnauthorized (buildMissingAPIKeyMessage config)

/-- Outcome of a decode-path step: the returned `api.StatusType`, the
request-header map after the step (mutations made via `header.Set` are
explicit state), and the local reply sent, if any. -/
structure AuthOutcome where
  status : StatusType
  req : RequestHeaders
  reply : Option LocalReplyData

/-- `authenticateRequest` (filter.go): look the key up in the key source;
on error reply 401 `Invalid API key`, on success set the username header
and continue.  A parsed `Config` always carries `some` key source
(`Parse` fails otherwise); the `none` branch is unreachable in the
modelled flow and is mirrored as a failed lookup. -/
def authenticateRequest (config : Config) (req : RequestHeaders) (apiKey : Str) :
    AuthOutcome :=
  match config.keySource with
  | some getUsername =>
    match getUsername apiKey with
    | some username =>
      { status := StatusType.Continue
        req := { req with headers := mapSet req.headers config.usernameHeader username }
        reply := none }
    | Option.none =>
      { status := StatusType.LocalReply
        req := req
        reply := some (rejectWithUnauthorized (str "Invalid API key")) }
  | Option.none =>
    { status := StatusType.LocalReply
      req := req
      reply := some (rejectWithUnauthorized (str "Invalid API key")) }

/-- `Filter.DecodeHeaders` (filter.go): skip excluded paths, extract the
key by priority, reject when missing, otherwise authenticate.  The
`apiKey` field stored on the filter for `EncodeHeaders` is returned
alongside (empty when authentication did not continue). -/
def DecodeHeaders (config : Config) (req : RequestHeaders) (clusterName : Str) :
    AuthOutcome × Str :=
  if shouldSkipAuth config req.path clusterName then
    ({ status := StatusType.Continue, req := req, reply := none }, [])
  else
    match extractAPIKeyByPriority config req with
    | (apiKey, _authSource) =>
      if apiKey = [] then
        ({ status := StatusType.LocalReply, req := req
           reply := some (rejectMissingAPIKey config) }, [])
      else
        let outcome := authenticateRequest config req apiKey
        (outcome, if outcome.status = StatusType.Continue then apiKey else [])

/-- `Filter.EncodeHeaders` (filter.go): always calls
`SaveAPIKeyToCookie` with the stored key and the constant
`AuthSourceHeader`, regardless of where the key actually came from. -/
def EncodeHeaders (config : Config) (storedApiKey : Str) (resp : RespHeaders) :
    RespHeaders :=
  SaveAPIKeyToCookie config resp storedApiKey AuthSource.header

/- ---------------------------------------------------------------------
Configuration merge (parser.go)
--------------------------------------------------------------------- -/

/-- `Parser.Merge` (parser.go): start from the parent's scalar fields and
a clone of its exclude paths, but a fresh empty cluster map; override
scalars with non-empty child values, append the child's exclude paths,
then fold the child's cluster entries into the (initially empty) new
cluster map — the `exists` branch merges exclude-path lists, the other
branch copies the child entry with a default `Exclude` flag. -/
def Merge (parent child : Config) : Config :=
  let base : Config :=
    { apiKeyHeader := parent.apiKeyHeader
      usernameHeader := parent.usernameHeader
      apiKeyQueryParam := parent.apiKeyQueryParam
      apiKeyCookie := parent.apiKeyCookie
      authPriority := parent.authPriority
      excludePaths := parent.excludePaths
      clusterConfigs := []
      cookieSettings := parent.cookieSettings
      keySource := parent.keySource }
  let withScalars : Config :=
    { base with
      apiKeyHeader :=
        if ¬ child.apiKeyHeader = [] then child.apiKeyHeader else base.apiKeyHeader
      usernameHeader :=
        if ¬ child.usernameHeader = [] then child.usernameHeader else base.usernameHeader
      keySource :=
        if child.keySource.isSome then child.keySource else base.keySource
      excludePaths :=
        if 0 < child.excludePaths.length then
          base.excludePaths ++ child.excludePaths
        else base.excludePaths }
  { withScalars with
    clusterConfigs :=
      child.clusterConfigs.foldl
        (fun m entry =>
          match clusterLookup m entry.1 with
          | some existing =>
            (m.filter (fun p => ¬ p.1 = entry.1))
              ++ [(entry.1, { existing with
                    excludePaths := existing.excludePaths ++ entry.2.excludePaths })]
          | Option.none =>
            m ++ [(entry.1, { excludePaths := entry.2.excludePaths, exclude := false })])
        [] }

/-- The value a single entry of the priority list yields in the `switch`
of `extractAPIKeyByPriority`: `some` exactly when the corresponding
extractor reports a key. -/
def sourceYield (config : Config) (req : RequestHeaders) (source : Str) :
    Option (Str × AuthSource) :=
  if source = str "header" then
    match getHeaderAPIKey config req with
    | (apiKey, true) => some (apiKey, AuthSource.header)
    | (_, false) => none
  else if source = str "query" then
    match getQueryAPIKey config req with
    | (apiKey, true) => some (apiKey, AuthSource.query)
    | (_, false) => none
  else if source = str "cookie" then
    match getCookieAPIKey config req with
    | (apiKey, true) => some (apiKey, AuthSource.cookie)
    | (_, false) => none
  else none

/-- The attribute chunks appended by `SetCookie` after `name=value`, each
to be preceded by a `;` separator. -/
def attrSegs (settings : CookieSettings) : List Str :=
  [str " Max-Age=" ++ intChars settings.maxAge, str " Path=" ++ settings.path]
    ++ (if ¬ settings.domain = [] then [str " Domain=" ++ settings.domain] else [])
    ++ (if settings.secure then [str " Secure"] else [])
    ++ (if settings.httpOnly then [str " HttpOnly"] else [])
    ++ (if ¬ settings.sameSite = [] then [str " SameSite=" ++ settings.sameSite] else [])

/-- Concatenate chunks, each preceded by a `;`. -/
def joinSemi : List Str → Str
  | [] => []
  | s :: rest => ';' :: (s ++ joinSemi rest)

/- ---------------------------------------------------------------------
Specification-side definitions (for refinement comparison) and fixtures
--------------------------------------------------------------------- -/

/-- The exclusion predicate as the specification words it: after
stripping any query-string suffix, true iff some global exclusion prefix
or some prefix configured for the cluster name is a prefix of the
stripped path.  Written from the spec text, to be compared with
`shouldSkipAuth`. -/
def shouldSkipAuthSpec (config : Config) (path clusterName : Str) : Bool :=
  let p := path.takeWhile (fun c => ¬ c = '?')
  config.excludePaths.any (fun pre => pre.isPrefixOf p) ||
    (((clusterLookup config.clusterConfigs clusterName).map
        ClusterConfig.excludePaths).getD []).any (fun pre => pre.isPrefixOf p)

/-- The exclusion predicate as the amended claim words it: the
cluster-specific prefixes apply only when the cluster name is
non-empty. -/
def shouldSkipAuthAmended (config : Config) (path clusterName : Str) : Bool :=
  let p := path.takeWhile (fun c => ¬ c = '?')
  config.excludePaths.any (fun pre => pre.isPrefixOf p) ||
    (¬ clusterName = [] &&
      (((clusterLookup config.clusterConfigs clusterName).map
          ClusterConfig.excludePaths).getD []).any (fun pre => pre.isPrefixOf p))

/-- A concrete key source: `abc ↦ alice`. -/
def ksEx : Str → Option Str :=
  fun k => if k = str "abc" then some (str "alice") else Option.none

/-- A concrete configuration used to instantiate the theorems. -/
def cfgEx : Config :=
  { apiKeyHeader := str "X-API-Key"
    usernameHeader := str "X-User-ID"
    apiKeyQueryParam := str "key"
    apiKeyCookie := str "sid"
    authPriority := [str "header", str "query", str "cookie"]
    excludePaths := [str "/health"]
    clusterConfigs := []
    cookieSettings := DefaultCookieSettings
    keySource := some ksEx }

/-- `cfgEx` with query checked before header. -/
def cfgPrioQH : Config := { cfgEx with authPriority := [str "query", str "header"] }

/-- `cfgEx` with cookie as the only credential source. -/
def cfgCookieAuth : Config := { cfgEx with authPriority := [str "cookie"] }

/-- `cfgEx` with the query-parameter source disabled by an empty name. -/
def cfgNoQuery : Config := { cfgEx with apiKeyQueryParam := [] }

/-- A configuration whose cluster map binds the empty cluster name. -/
def cfgEmptyCluster : Config :=
  { cfgEx with
    excludePaths := []
    clusterConfigs := [([], { excludePaths := [str "/x"], exclude := false })] }

/-- Parent configuration for the merge evaluation. -/
def parentCfg : Config :=
  { cfgEx with
    clusterConfigs := [(str "c1", { excludePaths := [str "/a"], exclude := false })] }

/-- Child configuration for the merge evaluation. -/
def childCfg : Config :=
  { cfgEx with
    apiKeyHeader := str "X-Child-Key"
    excludePaths := [str "/metrics"]
    clusterConfigs := []
    keySource := Option.none }

/-- A request carrying the valid key in a cookie. -/
def reqCookie : RequestHeaders :=
  { headers := [(str "Cookie", str "sid=abc")], path := str "/x" }

/-- A request with no credential at all. -/
def reqNoCred : RequestHeaders := { headers := [], path := str "/x" }

/-- A request carrying an unrecognized header credential. -/
def reqBadCred : RequestHeaders :=
  { headers := [(str "X-API-Key", str "zzz")], path := str "/x" }

/-- A request whose unrecognized credential is the literal `API`. -/
def reqAPICred : RequestHeaders :=
  { headers := [(str "X-API-Key", str "API")], path := str "/x" }

/-- A request carrying the valid key in the header. -/
def reqHeaderCred : RequestHeaders :=
  { headers := [(str "X-API-Key", str "abc")], path := str "/x" }

/- ---------------------------------------------------------------------
General lemmas about the string and map models
--------------------------------------------------------------------- -/

/-- `find?` ignores entries removed by a filter on a different key. -/
lemma find?_filter_ne (m : StrMap) (k k' : Str) (h : ¬ k' = k) :
    List.find? (fun p => p.1 = k') (m.filter (fun p => ¬ p.1 = k)) =
      List.find? (fun p => p.1 = k') m := by
  induction m with
  | nil => rfl
  | cons p rest ih =>
    by_cases hp : p.1 = k
    · have hfil : List.filter (fun q => ¬ q.1 = k) (p :: rest)
          = List.filter (fun q => ¬ q.1 = k) rest := by
        rw [List.filter_cons, if_neg (by simp [hp])]
      have hb : (decide (p.1 = k') : Bool) = false := by
        simp only [decide_eq_false_iff_not]
        rw [hp]
        exact fun hcon => h hcon.symm
      rw [hfil, ih]
      simp only [List.find?_cons, hb]
    · have hfil : List.filter (fun q => ¬ q.1 = k) (p :: rest)
          = p :: List.filter (fun q => ¬ q.1 = k) rest := by
        rw [List.filter_cons, if_pos (by simp [hp])]
      rw [hfil]
      by_cases hk' : p.1 = k'
      · have hb : (decide (p.1 = k') : Bool) = true := by simp [hk']
        simp only [List.find?_cons, hb]
      · have hb : (decide (p.1 = k') : Bool) = false := by simp [hk']
        simp only [List.find?_cons, hb]
        exact ih

/-- Reading back the key just written. -/
lemma mapLookup_mapSet_self (m : StrMap) (k v : Str) :
    mapLookup (mapSet m k v) k = some v := by
  have hb : (decide (k = k) : Bool) = true := by simp
  simp only [mapLookup, mapSet, List.find?_cons, hb]
  rfl

/-- Writing one key leaves every other key's binding unchanged. -/
lemma mapLookup_mapSet_ne (m : StrMap) (k v k' : Str) (h : ¬ k' = k) :
    mapLookup (mapSet m k v) k' = mapLookup m k' := by
  have hb : (decide (k = k') : Bool) = false := by
    simp only [decide_eq_false_iff_not]
    exact fun hcon => h hcon.symm
  simp only [mapLookup, mapSet, List.find?_cons, hb]
  rw [find?_filter_ne m k k' h]

/-- `splitOnChar` always returns at least one part. -/
lemma splitOnChar_ne_nil (sep : Char) (s : Str) : ¬ splitOnChar sep s = [] := by
  induction s with
  | nil => simp [splitOnChar]
  | cons c rest ih =>
    by_cases hc : c = sep
    · simp [splitOnChar, hc]
    · simp only [splitOnChar, if_neg hc]
      cases hs : splitOnChar sep rest <;> simp

/-- A separator-free string is a single part. -/
lemma splitOnChar_not_mem (sep : Char) (s : Str) (h : ¬ sep ∈ s) :
    splitOnChar sep s = [s] := by
  induction s with
  | nil => simp [splitOnChar]
  | cons c rest ih =>
    have hc : ¬ c = sep := by
      intro hcon
      exact h (hcon ▸ List.mem_cons_self c rest)
    have hrest : ¬ sep ∈ rest := fun hm => h (List.mem_cons_of_mem c hm)
    simp [splitOnChar, hc, ih hrest]

/-- Splitting distributes over a separator occurrence. -/
lemma splitOnChar_append (sep : Char) (xs ys : Str) :
    splitOnChar sep (xs ++ sep :: ys) =
      splitOnChar sep xs ++ splitOnChar sep ys := by
  induction xs with
  | nil => simp [splitOnChar]
  | cons c rest ih =>
    by_cases hc : c = sep
    · simp [splitOnChar, hc, ih]
    · rw [List.cons_append]
      cases hs : splitOnChar sep rest with
      | nil => exact absurd hs (splitOnChar_ne_nil sep rest)
      | cons p ps =>
        simp only [splitOnChar, if_neg hc, ih, hs]
        simp

/-- Splitting off a leading separator-free part. -/
lemma splitOnChar_cons_part (sep : Char) (xs ys : Str) (h : ¬ sep ∈ xs) :
    splitOnChar sep (xs ++ sep :: ys) = xs :: splitOnChar sep ys := by
  rw [splitOnChar_append, splitOnChar_not_mem sep xs h]
  simp

/-- `splitN2` on a separator-free string finds nothing. -/
lemma splitN2_not_mem (sep : Char) (s : Str) (h : ¬ sep ∈ s) :
    splitN2 sep s = (s, none) := by
  induction s with
  | nil => simp [splitN2]
  | cons c rest ih =>
    have hc : ¬ c = sep := by
      intro hcon
      exact h (hcon ▸ List.mem_cons_self c rest)
    have hrest : ¬ sep ∈ rest := fun hm => h (List.mem_cons_of_mem c hm)
    simp [splitN2, hc, ih hrest]

/-- `splitN2` cuts at the first separator. -/
lemma splitN2_append (sep : Char) (k v : Str) (h : ¬ sep ∈ k) :
    splitN2 sep (k ++ sep :: v) = (k, some v) := by
  induction k with
  | nil => simp [splitN2]
  | cons c rest ih =>
    have hc : ¬ c = sep := by
      intro hcon
      exact h (hcon ▸ List.mem_cons_self c rest)
    have hrest : ¬ sep ∈ rest := fun hm => h (List.mem_cons_of_mem c hm)
    simp [splitN2, hc, ih hrest]

/-- Dropping by a predicate no element satisfies is the identity. -/
lemma dropWhile_all_neg (p : Char → Bool) (s : Str)
    (h : ∀ c ∈ s, ¬ p c = true) : s.dropWhile p = s := by
  cases s with
  | nil => rfl
  | cons c rest =>
    simp [List.dropWhile_cons, h c (List.mem_cons_self c rest)]

/-- Trimming a fully non-whitespace string is the identity. -/
lemma trimSpace_of_forall (s : Str) (h : ∀ c ∈ s, ¬ c.isWhitespace = true) :
    trimSpace s = s := by
  unfold trimSpace
  rw [dropWhile_all_neg _ s h]
  rw [dropWhile_all_neg _ s.reverse (fun c hc => h c (List.mem_reverse.mp hc))]
  simp

/-- Trimming absorbs a leading whitespace character. -/
lemma trimSpace_cons_ws (c : Char) (s : Str) (h : c.isWhitespace = true) :
    trimSpace (c :: s) = trimSpace s := by
  unfold trimSpace
  rw [List.dropWhile_cons, if_pos h]

/- ---------------------------------------------------------------------
Lemmas about credential extraction
--------------------------------------------------------------------- -/

/-- One iteration of the priority loop, phrased through `sourceYield`. -/
lemma extractLoop_cons (config : Config) (req : RequestHeaders)
    (source : Str) (rest : List Str) :
    extractLoop config req (source :: rest) =
      match sourceYield config req source with
      | some r => r
      | Option.none => extractLoop config req rest := by
  conv_lhs => rw [extractLoop]
  unfold sourceYield
  by_cases h1 : source = str "header"
  · simp only [if_pos h1]
    rcases hk : getHeaderAPIKey config req with ⟨k, b⟩
    cases b <;> simp
  · by_cases h2 : source = str "query"
    · simp only [if_neg h1, if_pos h2]
      rcases hk : getQueryAPIKey config req with ⟨k, b⟩
      cases b <;> simp
    · by_cases h3 : source = str "cookie"
      · simp only [if_neg h1, if_neg h2, if_pos h3]
        rcases hk : getCookieAPIKey config req with ⟨k, b⟩
        cases b <;> simp
      · simp [if_neg h1, if_neg h2, if_neg h3]

/-- Priority entries that yield nothing are skipped. -/
lemma extractLoop_append_none (config : Config) (req : RequestHeaders)
    (pre rest : List Str)
    (hpre : ∀ t ∈ pre, sourceYield config req t = none) :
    extractLoop config req (pre ++ rest) = extractLoop config req rest := by
  induction pre with
  | nil => rfl
  | cons s ss ih =>
    rw [List.cons_append, extractLoop_cons, hpre s (List.mem_cons_self s ss)]
    exact ih (fun t ht => hpre t (List.mem_cons_of_mem s ht))

/-- `getHeaderAPIKey` reports `true` only for a non-empty key. -/
lemma getHeaderAPIKey_true (config : Config) (req : RequestHeaders)
    (v : Str) (h : getHeaderAPIKey config req = (v, true)) : ¬ v = [] := by
  unfold getHeaderAPIKey at h
  split at h
  · simp at h
  · split at h
    · simp only [Prod.mk.injEq, decide_eq_true_eq] at h
      rw [← h.1]
      exact h.2
    · simp at h

/-- `getQueryAPIKey` reports `true` only for a non-empty key. -/
lemma getQueryAPIKey_true (config : Config) (req : RequestHeaders)
    (v : Str) (h : getQueryAPIKey config req = (v, true)) : ¬ v = [] := by
  unfold getQueryAPIKey at h
  split at h
  · simp at h
  · split at h
    · simp only [Prod.mk.injEq, decide_eq_true_eq] at h
      rw [← h.1]
      exact h.2
    · simp at h

/-- `getCookieAPIKey` reports `true` only for a non-empty key. -/
lemma getCookieAPIKey_true (config : Config) (req : RequestHeaders)
    (v : Str) (h : getCookieAPIKey config req = (v, true)) : ¬ v = [] := by
  unfold getCookieAPIKey at h
  split at h
  · simp at h
  · split at h
    · split at h
      · simp at h
      · split at h
        · simp only [Prod.mk.injEq, decide_eq_true_eq] at h
          rw [← h.1]
          exact h.2
        · simp at h
    · simp at h

/-- An extractor reporting `true` always carries a non-empty key. -/
lemma sourceYield_nonempty (config : Config) (req : RequestHeaders)
    (source v : Str) (src : AuthSource)
    (h : sourceYield config req source = some (v, src)) : ¬ v = [] := by
  unfold sourceYield at h
  split at h
  · split at h
    · simp only [Option.some.injEq, Prod.mk.injEq] at h
      rename_i heq
      rw [h.1] at heq
      exact getHeaderAPIKey_true config req v heq
    · simp at h
  · split at h
    · split at h
      · simp only [Option.some.injEq, Prod.mk.injEq] at h
        rename_i heq
        rw [h.1] at heq
        exact getQueryAPIKey_true config req v heq
      · simp at h
    · split at h
      · split at h
        · simp only [Option.some.injEq, Prod.mk.injEq] at h
          rename_i heq
          rw [h.1] at heq
          exact getCookieAPIKey_true config req v heq
        · simp at h
      · simp at h

/- ---------------------------------------------------------------------
Lemmas about cookie construction and parsing
--------------------------------------------------------------------- -/

/-- Every character emitted by `natCharsFuel` is a decimal digit, as long
as the accumulator only holds digits. -/
lemma natCharsFuel_digits (P : Char → Prop)
    (hdig : ∀ k, k < 10 → P (Char.ofNat (48 + k))) :
    ∀ fuel n acc, (∀ c ∈ acc, P c) → ∀ c ∈ natCharsFuel fuel n acc, P c := by
  intro fuel
  induction fuel with
  | zero => intro n acc hacc c hc; exact hacc c hc
  | succ f ih =>
    intro n acc hacc c hc
    unfold natCharsFuel at hc
    have hd : P (Char.ofNat (48 + n % 10)) :=
      hdig (n % 10) (Nat.mod_lt n (by norm_num))
    by_cases hn : n < 10
    · rw [if_pos hn] at hc
      rcases List.mem_cons.mp hc with hceq | hmem
      · rw [hceq]; exact hd
      · exact hacc c hmem
    · rw [if_neg hn] at hc
      refine ih (n / 10) (Char.ofNat (48 + n % 10) :: acc) ?_ c hc
      intro c' hc'
      rcases List.mem_cons.mp hc' with hceq | hmem
      · rw [hceq]; exact hd
      · exact hacc c' hmem

/-- The rendered `Max-Age` integer contains neither whitespace nor `;`. -/
lemma intChars_clean (i : Int) :
    ∀ c ∈ intChars i, ¬ c.isWhitespace = true ∧ ¬ c = ';' := by
  have hdig : ∀ k, k < 10 →
      (¬ (Char.ofNat (48 + k)).isWhitespace = true ∧ ¬ Char.ofNat (48 + k) = ';') := by
    decide
  have hnat : ∀ n : Nat, ∀ c ∈ natChars n, ¬ c.isWhitespace = true ∧ ¬ c = ';' := by
    intro n
    exact natCharsFuel_digits _ hdig (n + 1) n [] (by simp)
  intro c hc
  unfold intChars at hc
  by_cases hneg : i < 0
  · rw [if_pos hneg] at hc
    rcases List.mem_cons.mp hc with hceq | hmem
    · rw [hceq]; decide
    · exact hnat _ c hmem
  · rw [if_neg hneg] at hc
    exact hnat _ c hc

/-- `cookieStep` only looks at the trimmed part. -/
lemma cookieStep_congr_trim (m : StrMap) (p q : Str)
    (h : trimSpace p = trimSpace q) : cookieStep m p = cookieStep m q := by
  unfold cookieStep
  rw [h]

/-- A `k=v` part with clean characters performs a plain map write. -/
lemma cookieStep_keyval (m : StrMap) (k v : Str)
    (hkeq : ¬ '=' ∈ k)
    (hkw : ∀ c ∈ k, ¬ c.isWhitespace = true)
    (hvw : ∀ c ∈ v, ¬ c.isWhitespace = true) :
    cookieStep m (k ++ '=' :: v) = mapSet m k v := by
  have hall : ∀ c ∈ k ++ '=' :: v, ¬ c.isWhitespace = true := by
    intro c hc
    rcases List.mem_append.mp hc with hck | hcv
    · exact hkw c hck
    · rcases List.mem_cons.mp hcv with hceq | hmem
      · rw [hceq]; decide
      · exact hvw c hmem
  unfold cookieStep
  rw [trimSpace_of_forall _ hall]
  have hne : ¬ (k ++ '=' :: v) = [] := by simp
  rw [if_neg hne, splitN2_append '=' k v hkeq]

/-- A part that trims to an `=`-free string leaves the map unchanged. -/
lemma cookieStep_no_eq (m : StrMap) (p : Str)
    (h : ¬ '=' ∈ trimSpace p) : cookieStep m p = m := by
  unfold cookieStep
  by_cases hp : trimSpace p = []
  · rw [if_pos hp]
  · rw [if_neg hp, splitN2_not_mem '=' (trimSpace p) h]

/-- Folding parts that never write `name` preserves its binding. -/
lemma foldl_cookieStep_preserve (name : Str) (parts : List Str) (m : StrMap)
    (h : ∀ p ∈ parts, ∀ m', mapLookup (cookieStep m' p) name = mapLookup m' name) :
    mapLookup (List.foldl cookieStep m parts) name = mapLookup m name := by
  induction parts generalizing m with
  | nil => rfl
  | cons p ps ih =>
    rw [List.foldl_cons, ih (cookieStep m p)
      (fun q hq m' => h q (List.mem_cons_of_mem p hq) m')]
    exact h p (List.mem_cons_self p ps) m

/-- The built cookie string, re-expressed as head part plus `;`-joined
attribute chunks. -/
lemma buildCookieValue_eq (name value : Str) (s : CookieSettings) :
    buildCookieValue name value s =
      (name ++ '=' :: value) ++ joinSemi (attrSegs s) := by
  have e1 : str "; Max-Age=" = ';' :: str " Max-Age=" := rfl
  have e2 : str "; Path=" = ';' :: str " Path=" := rfl
  have e3 : str "; Domain=" = ';' :: str " Domain=" := rfl
  have e4 : str "; Secure" = ';' :: str " Secure" := rfl
  have e5 : str "; HttpOnly" = ';' :: str " HttpOnly" := rfl
  have e6 : str "; SameSite=" = ';' :: str " SameSite=" := rfl
  have e7 : str "=" = ['='] := rfl
  unfold buildCookieValue attrSegs
  by_cases h1 : s.domain = [] <;> by_cases h2 : s.secure = true <;>
    by_cases h3 : s.httpOnly = true <;> by_cases h4 : s.sameSite = [] <;>
    simp [h1, h2, h3, h4, e1, e2, e3, e4, e5, e6, e7, joinSemi,
      List.append_assoc]

/-- Splitting a head part followed by `;`-joined chunks recovers exactly
those parts. -/
lemma splitOnChar_joinSemi (A : Str) (segs : List Str)
    (hA : ¬ ';' ∈ A) (hsegs : ∀ s ∈ segs, ¬ ';' ∈ s) :
    splitOnChar ';' (A ++ joinSemi segs) = A :: segs := by
  induction segs generalizing A with
  | nil =>
    rw [joinSemi, List.append_nil, splitOnChar_not_mem ';' A hA]
  | cons s ss ih =>
    rw [joinSemi, splitOnChar_cons_part ';' A _ hA,
      ih s (hsegs s (List.mem_cons_self s ss))
        (fun t ht => hsegs t (List.mem_cons_of_mem s ht))]

/-- Every attribute chunk has one of six shapes. -/
lemma attrSegs_forms (settings : CookieSettings) :
    ∀ seg ∈ attrSegs settings,
      seg = str " Max-Age=" ++ intChars settings.maxAge ∨
      seg = str " Path=" ++ settings.path ∨
      seg = str " Domain=" ++ settings.domain ∨
      seg = str " Secure" ∨
      seg = str " HttpOnly" ∨
      seg = str " SameSite=" ++ settings.sameSite := by
  intro seg hseg
  unfold attrSegs at hseg
  split_ifs at hseg <;>
    simp only [List.mem_append, List.mem_cons, List.mem_singleton,
      List.not_mem_nil, or_false, false_or] at hseg <;>
    tauto

/-- A whitespace-prefixed attribute part writes its own key, leaving any
other name's binding unchanged. -/
lemma cookieStep_attr (m : StrMap) (name k v : Str)
    (hkeq : ¬ '=' ∈ k)
    (hkw : ∀ c ∈ k, ¬ c.isWhitespace = true)
    (hvw : ∀ c ∈ v, ¬ c.isWhitespace = true)
    (hne : ¬ name = k) :
    mapLookup (cookieStep m (' ' :: (k ++ '=' :: v))) name = mapLookup m name := by
  rw [cookieStep_congr_trim m (' ' :: (k ++ '=' :: v)) (k ++ '=' :: v)
    (trimSpace_cons_ws ' ' _ (by decide))]
  rw [cookieStep_keyval m k v hkeq hkw hvw]
  exact mapLookup_mapSet_ne m k v name hne

/-- Under the cleanliness conditions, no attribute chunk disturbs the
binding of `name`. -/
lemma attrSegs_keep (name : Str) (settings : CookieSettings)
    (hpw : ∀ c ∈ settings.path, ¬ c.isWhitespace = true)
    (hdw : ∀ c ∈ settings.domain, ¬ c.isWhitespace = true)
    (hsw : ∀ c ∈ settings.sameSite, ¬ c.isWhitespace = true)
    (h1 : ¬ name = str "Max-Age") (h2 : ¬ name = str "Path")
    (h3 : ¬ name = str "Domain") (h4 : ¬ name = str "SameSite") :
    ∀ seg ∈ attrSegs settings, ∀ m,
      mapLookup (cookieStep m seg) name = mapLookup m name := by
  intro seg hseg m
  rcases attrSegs_forms settings seg hseg with h | h | h | h | h | h
  · rw [h, show str " Max-Age=" ++ intChars settings.maxAge
        = ' ' :: (str "Max-Age" ++ '=' :: intChars settings.maxAge) by
      rw [show str " Max-Age=" = ' ' :: (str "Max-Age" ++ ['=']) from rfl]
      simp]
    exact cookieStep_attr m name (str "Max-Age") _ (by decide) (by decide)
      (fun c hc => (intChars_clean settings.maxAge c hc).1) h1
  · rw [h, show str " Path=" ++ settings.path
        = ' ' :: (str "Path" ++ '=' :: settings.path) by
      rw [show str " Path=" = ' ' :: (str "Path" ++ ['=']) from rfl]
      simp]
    exact cookieStep_attr m name (str "Path") _ (by decide) (by decide) hpw h2
  · rw [h, show str " Domain=" ++ settings.domain
        = ' ' :: (str "Domain" ++ '=' :: settings.domain) by
      rw [show str " Domain=" = ' ' :: (str "Domain" ++ ['=']) from rfl]
      simp]
    exact cookieStep_attr m name (str "Domain") _ (by decide) (by decide) hdw h3
  · rw [h, show cookieStep m (str " Secure") = m from rfl]
  · rw [h, show cookieStep m (str " HttpOnly") = m from rfl]
  · rw [h, show str " SameSite=" ++ settings.sameSite
        = ' ' :: (str "SameSite" ++ '=' :: settings.sameSite) by
      rw [show str " SameSite=" = ' ' :: (str "SameSite" ++ ['=']) from rfl]
      simp]
    exact cookieStep_attr m name (str "SameSite") _ (by decide) (by decide) hsw h4

/-- The cookie round-trip, under cleanliness conditions on the name, the
value and the settings. -/
lemma parseCookies_buildCookieValue (name value : Str) (settings : CookieSettings)
    (hn : ∀ c ∈ name, ¬ c.isWhitespace = true ∧ ¬ c = ';' ∧ ¬ c = '=')
    (hv : ∀ c ∈ value, ¬ c.isWhitespace = true ∧ ¬ c = ';')
    (hp : ∀ c ∈ settings.path, ¬ c.isWhitespace = true ∧ ¬ c = ';')
    (hd : ∀ c ∈ settings.domain, ¬ c.isWhitespace = true ∧ ¬ c = ';')
    (hs : ∀ c ∈ settings.sameSite, ¬ c.isWhitespace = true ∧ ¬ c = ';')
    (h1 : ¬ name = str "Max-Age") (h2 : ¬ name = str "Path")
    (h3 : ¬ name = str "Domain") (h4 : ¬ name = str "SameSite") :
    mapLookup (parseCookies (buildCookieValue name value settings)) name
      = some value := by
  rw [buildCookieValue_eq]
  unfold parseCookies
  have hAnosemi : ¬ ';' ∈ (name ++ '=' :: value) := by
    intro hmem
    rcases List.mem_append.mp hmem with hna | hcv
    · exact (hn ';' hna).2.1 rfl
    · rcases List.mem_cons.mp hcv with he | hva
      · exact absurd he (by decide)
      · exact (hv ';' hva).2 rfl
  have hsegs_nosemi : ∀ s ∈ attrSegs settings, ¬ ';' ∈ s := by
    intro s hseg hmem
    rcases attrSegs_forms settings s hseg with h | h | h | h | h | h <;>
      rw [h] at hmem
    · rcases List.mem_append.mp hmem with hlit | hI
      · exact absurd hlit (by decide)
      · exact (intChars_clean settings.maxAge ';' hI).2 rfl
    · rcases List.mem_append.mp hmem with hlit | hI
      · exact absurd hlit (by decide)
      · exact (hp ';' hI).2 rfl
    · rcases List.mem_append.mp hmem with hlit | hI
      · exact absurd hlit (by decide)
      · exact (hd ';' hI).2 rfl
    · exact absurd hmem (by decide)
    · exact absurd hmem (by decide)
    · rcases List.mem_append.mp hmem with hlit | hI
      · exact absurd hlit (by decide)
      · exact (hs ';' hI).2 rfl
  rw [splitOnChar_joinSemi _ _ hAnosemi hsegs_nosemi, List.foldl_cons,
    cookieStep_keyval [] name value (fun hmem => (hn '=' hmem).2.2 rfl)
      (fun c hc => (hn c hc).1) (fun c hc => (hv c hc).1),
    foldl_cookieStep_preserve name (attrSegs settings) (mapSet [] name value)
      (attrSegs_keep name settings (fun c hc => (hp c hc).1)
        (fun c hc => (hd c hc).1) (fun c hc => (hs c hc).1) h1 h2 h3 h4)]
  exact mapLookup_mapSet_self [] name value

/-- Appending a later `k=v` query parameter makes it win the lookup. -/
lemma parseQueryString_append_last (s k v : Str)
    (hk : ¬ '&' ∈ k) (hv : ¬ '&' ∈ v) (hkeq : ¬ '=' ∈ k) :
    mapLookup (parseQueryString (s ++ '&' :: (k ++ '=' :: v))) k = some v := by
  have hnm : ¬ '&' ∈ (k ++ '=' :: v) := by
    intro hmem
    rcases List.mem_append.mp hmem with hka | hcv
    · exact hk hka
    · rcases List.mem_cons.mp hcv with he | hva
      · exact absurd he (by decide)
      · exact hv hva
  unfold parseQueryString
  rw [splitOnChar_append '&' s (k ++ '=' :: v),
    splitOnChar_not_mem '&' (k ++ '=' :: v) hnm, List.foldl_append,
    List.foldl_cons, List.foldl_nil]
  unfold parseQueryParameter
  rw [if_neg (by simp), splitN2_append '=' k v hkeq]
  exact mapLookup_mapSet_self _ k v

/-- Appending a later `k=v` cookie makes it win the lookup. -/
lemma parseCookies_append_last (s k v : Str)
    (hk : ¬ ';' ∈ k) (hv : ¬ ';' ∈ v) (hkeq : ¬ '=' ∈ k)
    (hkw : ∀ c ∈ k, ¬ c.isWhitespace = true)
    (hvw : ∀ c ∈ v, ¬ c.isWhitespace = true) :
    mapLookup (parseCookies (s ++ ';' :: (k ++ '=' :: v))) k = some v := by
  have hnm : ¬ ';' ∈ (k ++ '=' :: v) := by
    intro hmem
    rcases List.mem_append.mp hmem with hka | hcv
    · exact hk hka
    · rcases List.mem_cons.mp hcv with he | hva
      · exact absurd he (by decide)
      · exact hv hva
  unfold parseCookies
  rw [splitOnChar_append ';' s (k ++ '=' :: v),
    splitOnChar_not_mem ';' (k ++ '=' :: v) hnm, List.foldl_append,
    List.foldl_cons, List.foldl_nil,
    cookieStep_keyval _ k v hkeq hkw hvw]
  exact mapLookup_mapSet_self _ k v

/- ---------------------------------------------------------------------
Lemmas about the per-request decision
--------------------------------------------------------------------- -/

/-- On an un-excluded path with no extracted credential, `DecodeHeaders`
sends the `Forbidden` local reply and leaves the request untouched. -/
lemma DecodeHeaders_missing (config : Config) (req : RequestHeaders)
    (clusterName : Str)
    (hskip : shouldSkipAuth config req.path clusterName = false)
    (hext : (extractAPIKeyByPriority config req).1 = []) :
    DecodeHeaders config req clusterName =
      ({ status := StatusType.LocalReply, req := req
         reply := some (rejectMissingAPIKey config) }, []) := by
  unfold DecodeHeaders
  rw [hskip]
  rcases hx : extractAPIKeyByPriority config req with ⟨a, srcx⟩
  have ha : a = [] := by rw [hx] at hext; exact hext
  subst ha
  simp

/-- On an un-excluded path with an extracted credential the key store
rejects, `DecodeHeaders` sends the `Invalid API key` local reply and
leaves the request untouched. -/
lemma DecodeHeaders_invalid (config : Config) (req : RequestHeaders)
    (clusterName k : Str) (ks : Str → Option Str)
    (hks : config.keySource = some ks)
    (hskip : shouldSkipAuth config req.path clusterName = false)
    (hext : (extractAPIKeyByPriority config req).1 = k)
    (hk : ¬ k = []) (hlookup : ks k = none) :
    DecodeHeaders config req clusterName =
      ({ status := StatusType.LocalReply, req := req
         reply := some (rejectWithUnauthorized (str "Invalid API key")) }, []) := by
  unfold DecodeHeaders
  rw [hskip]
  rcases hx : extractAPIKeyByPriority config req with ⟨a, srcx⟩
  have ha : a = k := by rw [hx] at hext; exact hext
  subst ha
  simp only [Bool.false_eq_true, if_false]
  rw [if_neg hk]
  unfold authenticateRequest
  rw [hks]
  simp [hlookup]

/- ---------------------------------------------------------------------
Claim theorems
--------------------------------------------------------------------- -/

/-- C1: for every configured priority order and every request, credential
extraction returns the value of the first source listed in the priority
order that yields a non-empty value — and since the tail of the priority
list after that source is universally quantified, no source listed after
it influences the result. -/
theorem extract_first_source_wins (config : Config) (req : RequestHeaders)
    (pre post : List Str) (s v : Str) (src : AuthSource)
    (hp : config.authPriority = pre ++ s :: post)
    (hpre : ∀ t ∈ pre, sourceYield config req t = none)
    (hs : sourceYield config req s = some (v, src)) :
    extractAPIKeyByPriority config req = (v, src) ∧ ¬ v = [] := by
  constructor
  · unfold extractAPIKeyByPriority
    rw [hp, extractLoop_append_none config req pre (s :: post) hpre,
      extractLoop_cons, hs]
  · exact sourceYield_nonempty config req s v src hs

/-- Witness for C1: with priority `[query, header]`, a request without a
query credential but with header `X-API-Key: abc` extracts `abc` from the
header. -/
theorem extract_first_source_wins_witness :
    extractAPIKeyByPriority cfgPrioQH reqHeaderCred
      = (str "abc", AuthSource.header) ∧ ¬ (str "abc") = [] :=
  extract_first_source_wins cfgPrioQH reqHeaderCred
    [str "query"] [] (str "header") (str "abc") AuthSource.header
    (by decide) (by decide) (by decide)

/-- C10: a source kind whose configured name is empty never yields a
credential, and such an entry of the priority list is skipped in favour
of the remaining entries. -/
theorem empty_source_name_skipped (config : Config) (req : RequestHeaders) :
    (config.apiKeyHeader = [] → getHeaderAPIKey config req = ([], false)) ∧
    (config.apiKeyQueryParam = [] → getQueryAPIKey config req = ([], false)) ∧
    (config.apiKeyCookie = [] → getCookieAPIKey config req = ([], false)) ∧
    (∀ source rest,
      ((source = str "header" ∧ config.apiKeyHeader = []) ∨
       (source = str "query" ∧ config.apiKeyQueryParam = []) ∨
       (source = str "cookie" ∧ config.apiKeyCookie = [])) →
      extractLoop config req (source :: rest) = extractLoop config req rest) := by
  refine ⟨?_, ?_, ?_, ?_⟩
  · intro h
    unfold getHeaderAPIKey
    rw [if_pos h]
  · intro h
    unfold getQueryAPIKey
    rw [if_pos h]
  · intro h
    unfold getCookieAPIKey
    rw [if_pos h]
  · intro source rest hsrc
    have hy : sourceYield config req source = none := by
      rcases hsrc with ⟨hseq, hname⟩ | ⟨hseq, hname⟩ | ⟨hseq, hname⟩ <;> subst hseq
      · unfold sourceYield
        rw [if_pos rfl]
        unfold getHeaderAPIKey
        rw [if_pos hname]
      · unfold sourceYield
        rw [if_neg (by decide), if_pos rfl]
        unfold getQueryAPIKey
        rw [if_pos hname]
      · unfold sourceYield
        rw [if_neg (by decide), if_neg (by decide), if_pos rfl]
        unfold getCookieAPIKey
        rw [if_pos hname]
    rw [extractLoop_cons, hy]

/-- Witness for C10: with an empty query-parameter name, the query source
yields nothing even though the path carries `?key=1`, and the priority
entry is skipped. -/
theorem empty_source_name_skipped_witness :
    getQueryAPIKey cfgNoQuery { headers := [], path := str "/x?key=1" }
      = ([], false) :=
  (empty_source_name_skipped cfgNoQuery
    { headers := [], path := str "/x?key=1" }).2.1 (by decide)

/-- C2: on an un-excluded path, a request with no extracted credential is
rejected with 401 `Forbidden`, and one whose credential fails the
key-store lookup is rejected with 401 `Invalid API key`; both rejections
carry the `content-type: text/plain` and `www-authenticate` headers. -/
theorem decode_rejection_contract (config : Config) (req : RequestHeaders)
    (clusterName : Str) (ks : Str → Option Str)
    (hks : config.keySource = some ks)
    (hskip : shouldSkipAuth config req.path clusterName = false) :
    ((extractAPIKeyByPriority config req).1 = [] →
      (DecodeHeaders config req clusterName).1.status = StatusType.LocalReply ∧
      (DecodeHeaders config req clusterName).1.reply =
        some { status := 401, body := str "Forbidden"
               headers := createAuthErrorHeaders }) ∧
    (¬ (extractAPIKeyByPriority config req).1 = [] →
      ks (extractAPIKeyByPriority config req).1 = none →
      (DecodeHeaders config req clusterName).1.status = StatusType.LocalReply ∧
      (DecodeHeaders config req clusterName).1.reply =
        some { status := 401, body := str "Invalid API key"
               headers := createAuthErrorHeaders }) ∧
    createAuthErrorHeaders =
      [(str "content-type", [str "text/plain"]),
       (str "www-authenticate", [str "X-API-Key"])] := by
  refine ⟨?_, ?_, rfl⟩
  · intro hext
    rw [DecodeHeaders_missing config req clusterName hskip hext]
    exact ⟨rfl, rfl⟩
  · intro hne hlookup
    rw [DecodeHeaders_invalid config req clusterName
      (extractAPIKeyByPriority config req).1 ks hks hskip rfl hne hlookup]
    exact ⟨rfl, rfl⟩

/-- Witness for C2: a credential-free request to `/x` under `cfgEx` is
rejected with the `Forbidden` local reply. -/
theorem decode_rejection_contract_witness :
    (DecodeHeaders cfgEx reqNoCred []).1.status = StatusType.LocalReply ∧
    (DecodeHeaders cfgEx reqNoCred []).1.reply =
      some { status := 401, body := str "Forbidden"
             headers := createAuthErrorHeaders } :=
  (decode_rejection_contract cfgEx reqNoCred [] ksEx rfl (by decide)).1
    (by decide)

/-- Counterexample to C3: with a prefix list configured under the empty
cluster name, the claimed characterization says `/x` is excluded for the
empty cluster name, but `shouldSkipAuth` returns false — the code skips
the cluster check whenever the cluster name is empty. -/
theorem shouldSkipAuth_spec_counterexample :
    shouldSkipAuth cfgEmptyCluster (str "/x") [] = false ∧
    shouldSkipAuthSpec cfgEmptyCluster (str "/x") [] = true := by decide

/-- C3 (amended): `shouldSkipAuth` strips everything from the first `?`
onward and is true iff some global prefix matches, or the cluster name is
non-empty and some prefix configured for it matches; with prefixes
`["/health"]` it is true for `/health`, `/health/ready`, `/healthz` and
false for `/api/health`. -/
theorem shouldSkipAuth_characterization :
    (∀ config path clusterName,
      shouldSkipAuth config path clusterName
        = shouldSkipAuthAmended config path clusterName) ∧
    shouldSkipAuth cfgEx (str "/health") (str "c") = true ∧
    shouldSkipAuth cfgEx (str "/health/ready") (str "c") = true ∧
    shouldSkipAuth cfgEx (str "/healthz") (str "c") = true ∧
    shouldSkipAuth cfgEx (str "/api/health") (str "c") = false := by
  refine ⟨?_, by decide, by decide, by decide, by decide⟩
  intro config path clusterName
  rw [Bool.eq_iff_iff]
  unfold shouldSkipAuth shouldSkipAuthAmended isPathExcludedGlobally
    isPathExcludedForCluster isPathInExcludeList getPathWithoutQuery
  by_cases hc : clusterName = []
  · simp [hc]
  · cases hl : clusterLookup config.clusterConfigs clusterName with
    | none => simp [hc, hl]
    | some cc => simp [hc, hl]

/-- Counterexample to C4: for the cookie header `a=1; a=2` the parser
keeps the **last** occurrence, not the first as claimed. -/
theorem parseCookies_first_wins_counterexample :
    mapLookup (parseCookies (str "a=1; a=2")) (str "a") = some (str "2") ∧
    ¬ mapLookup (parseCookies (str "a=1; a=2")) (str "a") = some (str "1") := by
  decide

/-- C4 (amended): both parsers keep the **last** occurrence of a
duplicated name: appending a later `k=v` always wins the lookup, and
concretely `a=1&a=2` and `a=1; a=2` both resolve to `2`. -/
theorem duplicate_resolution_last_wins :
    (∀ s k v, ¬ '&' ∈ k → ¬ '&' ∈ v → ¬ '=' ∈ k →
      mapLookup (parseQueryString (s ++ '&' :: (k ++ '=' :: v))) k = some v) ∧
    (∀ s k v, ¬ ';' ∈ k → ¬ ';' ∈ v → ¬ '=' ∈ k →
      (∀ c ∈ k, ¬ c.isWhitespace = true) →
      (∀ c ∈ v, ¬ c.isWhitespace = true) →
      mapLookup (parseCookies (s ++ ';' :: (k ++ '=' :: v))) k = some v) ∧
    mapLookup (parseQueryString (str "a=1&a=2")) (str "a") = some (str "2") ∧
    mapLookup (parseCookies (str "a=1; a=2")) (str "a") = some (str "2") :=
  ⟨parseQueryString_append_last, parseCookies_append_last, by decide, by decide⟩

/-- Witness for C4 (amended): the later `a=2` wins over an earlier `a=1`
in a query string assembled from the quantified parts. -/
theorem duplicate_resolution_last_wins_witness :
    mapLookup (parseQueryString (str "a=1" ++ '&' :: (str "a" ++ '=' :: str "2")))
      (str "a") = some (str "2") :=
  duplicate_resolution_last_wins.1 (str "a=1") (str "a") (str "2")
    (by decide) (by decide) (by decide)

/-- C5 evaluated at the failing input: the credential is extracted from
the cookie source and authentication continues, yet `EncodeHeaders`
re-issues a `Set-Cookie` header carrying that same key, because it passes
the constant `AuthSourceHeader` to `SaveAPIKeyToCookie` instead of the
request's actual source, making the source guard dead. -/
theorem cookie_reissued_despite_cookie_source :
    (extractAPIKeyByPriority cfgCookieAuth reqCookie).2 = AuthSource.cookie ∧
    (DecodeHeaders cfgCookieAuth reqCookie []).1.status = StatusType.Continue ∧
    (DecodeHeaders cfgCookieAuth reqCookie []).2 = str "abc" ∧
    EncodeHeaders cfgCookieAuth (DecodeHeaders cfgCookieAuth reqCookie []).2 []
      = [(str "Set-Cookie",
          buildCookieValue (str "sid") (str "abc") cfgCookieAuth.cookieSettings)] ∧
    SaveAPIKeyToCookie cfgCookieAuth [] (str "abc") AuthSource.cookie = [] := by
  refine ⟨rfl, rfl, rfl, rfl, rfl⟩

/-- C6 evaluated at the failing input: `Merge` overrides scalars and
concatenates the global exclude paths as claimed, but the parent's
per-cluster configuration `c1` is absent from the merged result — the
merged cluster map holds only the child's entries. -/
theorem merge_drops_parent_cluster_configs :
    clusterLookup parentCfg.clusterConfigs (str "c1")
      = some { excludePaths := [str "/a"], exclude := false } ∧
    childCfg.clusterConfigs = [] ∧
    (Merge parentCfg childCfg).clusterConfigs = [] ∧
    clusterLookup (Merge parentCfg childCfg).clusterConfigs (str "c1") = none ∧
    (Merge parentCfg childCfg).apiKeyHeader = str "X-Child-Key" ∧
    (Merge parentCfg childCfg).excludePaths = [str "/health", str "/metrics"] := by
  refine ⟨rfl, rfl, rfl, rfl, rfl, rfl⟩

/-- Counterexample to C7: building a cookie for value `x;y` and parsing
it back yields `x`, not the original value — the round-trip fails when
the value contains a `;`. -/
theorem cookie_roundtrip_counterexample :
    mapLookup (parseCookies
        (buildCookieValue (str "a") (str "x;y") DefaultCookieSettings))
      (str "a") = some (str "x") ∧
    ¬ mapLookup (parseCookies
        (buildCookieValue (str "a") (str "x;y") DefaultCookieSettings))
      (str "a") = some (str "x;y") := by decide

/-- C7 (amended): the round-trip holds whenever the name and value are
free of `;`, `=` (name) and whitespace, the settings' path, domain and
same-site strings are free of `;` and whitespace, and the name is not one
of the emitted attribute names. -/
theorem cookie_roundtrip_amended (name value : Str) (settings : CookieSettings)
    (hn : ∀ c ∈ name, ¬ c.isWhitespace = true ∧ ¬ c = ';' ∧ ¬ c = '=')
    (hv : ∀ c ∈ value, ¬ c.isWhitespace = true ∧ ¬ c = ';')
    (hp : ∀ c ∈ settings.path, ¬ c.isWhitespace = true ∧ ¬ c = ';')
    (hd : ∀ c ∈ settings.domain, ¬ c.isWhitespace = true ∧ ¬ c = ';')
    (hs : ∀ c ∈ settings.sameSite, ¬ c.isWhitespace = true ∧ ¬ c = ';')
    (h1 : ¬ name = str "Max-Age") (h2 : ¬ name = str "Path")
    (h3 : ¬ name = str "Domain") (h4 : ¬ name = str "SameSite") :
    mapLookup (parseCookies (buildCookieValue name value settings)) name
      = some value :=
  parseCookies_buildCookieValue name value settings hn hv hp hd hs h1 h2 h3 h4

/-- Witness for C7 (amended): the default settings round-trip
`sid ↦ abc`. -/
theorem cookie_roundtrip_amended_witness :
    mapLookup (parseCookies
        (buildCookieValue (str "sid") (str "abc") DefaultCookieSettings))
      (str "sid") = some (str "abc") :=
  cookie_roundtrip_amended (str "sid") (str "abc") DefaultCookieSettings
    (by decide) (by decide) (by decide) (by decide) (by decide)
    (by decide) (by decide) (by decide) (by decide)

/-- Counterexample to C8: two requests differing only in the
(missing vs. unrecognized) credential receive different rejection bodies,
and for the unrecognized credential `API` the constant body
`Invalid API key` does contain the submitted key as a substring. -/
theorem rejection_body_counterexample :
    (DecodeHeaders cfgEx reqNoCred []).1.reply.map LocalReplyData.body
      = some (str "Forbidden") ∧
    (DecodeHeaders cfgEx reqBadCred []).1.reply.map LocalReplyData.body
      = some (str "Invalid API key") ∧
    ¬ (str "Forbidden") = str "Invalid API key" ∧
    (DecodeHeaders cfgEx reqAPICred []).1.reply.map LocalReplyData.body
      = some (str "Invalid API key") ∧
    str "Invalid API key" = str "Invalid " ++ str "API" ++ str " key" := by
  refine ⟨rfl, rfl, by decide, rfl, rfl⟩

/-- C8 (amended): the rejection body is a constant depending only on the
rejection stage, never on the submitted key — any two requests both
missing a credential receive identical replies with body `Forbidden`, and
any two requests whose extracted credentials both fail the lookup receive
identical replies with body `Invalid API key`. -/
theorem rejection_body_constant (config : Config) (ks : Str → Option Str)
    (clusterName : Str) (r1 r2 : RequestHeaders)
    (hks : config.keySource = some ks)
    (h1 : shouldSkipAuth config r1.path clusterName = false)
    (h2 : shouldSkipAuth config r2.path clusterName = false) :
    ((extractAPIKeyByPriority config r1).1 = [] →
      (extractAPIKeyByPriority config r2).1 = [] →
      (DecodeHeaders config r1 clusterName).1.reply
        = (DecodeHeaders config r2 clusterName).1.reply ∧
      (DecodeHeaders config r1 clusterName).1.reply.map LocalReplyData.body
        = some (str "Forbidden")) ∧
    (¬ (extractAPIKeyByPriority config r1).1 = [] →
      ¬ (extractAPIKeyByPriority config r2).1 = [] →
      ks (extractAPIKeyByPriority config r1).1 = none →
      ks (extractAPIKeyByPriority config r2).1 = none →
      (DecodeHeaders config r1 clusterName).1.reply
        = (DecodeHeaders config r2 clusterName).1.reply ∧
      (DecodeHeaders config r1 clusterName).1.reply.map LocalReplyData.body
        = some (str "Invalid API key")) := by
  constructor
  · intro he1 he2
    rw [DecodeHeaders_missing config r1 clusterName h1 he1,
      DecodeHeaders_missing config r2 clusterName h2 he2]
    exact ⟨rfl, rfl⟩
  · intro hn1 hn2 hl1 hl2
    rw [DecodeHeaders_invalid config r1 clusterName _ ks hks h1 rfl hn1 hl1,
      DecodeHeaders_invalid config r2 clusterName _ ks hks h2 rfl hn2 hl2]
    exact ⟨rfl, rfl⟩

/-- Witness for C8 (amended): two concrete requests with distinct
unrecognized credentials receive the identical `Invalid API key` reply. -/
theorem rejection_body_constant_witness :
    (DecodeHeaders cfgEx reqBadCred []).1.reply
      = (DecodeHeaders cfgEx reqAPICred []).1.reply ∧
    (DecodeHeaders cfgEx reqBadCred []).1.reply.map LocalReplyData.body
      = some (str "Invalid API key") :=
  (rejection_body_constant cfgEx ksEx [] reqBadCred reqAPICred rfl
    (by decide) (by decide)).2 (by decide) (by decide) (by decide) (by decide)

/-- Counterexample to C9: computing the authentication decision for a
valid key does not leave the request state unchanged — the username
header is set inside `authenticateRequest` itself, before the decision is
returned to the caller. -/
theorem authenticate_mutates_counterexample :
    (authenticateRequest cfgEx reqNoCred (str "abc")).status
      = StatusType.Continue ∧
    ¬ (authenticateRequest cfgEx reqNoCred (str "abc")).req.headers
      = reqNoCred.headers := by
  refine ⟨rfl, by decide⟩

/-- C9 (amended): `authenticateRequest` leaves the request untouched on a
failed lookup, and on success mutates exactly the configured username
header (set to the resolved identity) itself, before returning — every
other header and the path are unchanged. -/
theorem authenticate_frame_condition (config : Config) (req : RequestHeaders)
    (apiKey : Str) (ks : Str → Option Str)
    (hks : config.keySource = some ks) :
    (ks apiKey = none →
      authenticateRequest config req apiKey =
        { status := StatusType.LocalReply, req := req
          reply := some (rejectWithUnauthorized (str "Invalid API key")) }) ∧
    (∀ username, ks apiKey = some username →
      (authenticateRequest config req apiKey).status = StatusType.Continue ∧
      (authenticateRequest config req apiKey).req.path = req.path ∧
      (authenticateRequest config req apiKey).req.headers
        = mapSet req.headers config.usernameHeader username ∧
      ∀ n, ¬ n = config.usernameHeader →
        mapLookup (authenticateRequest config req apiKey).req.headers n
          = mapLookup req.headers n) := by
  constructor
  · intro h
    unfold authenticateRequest
    rw [hks]
    simp [h]
  · intro username hu
    unfold authenticateRequest
    rw [hks]
    simp only [hu]
    refine ⟨trivial, trivial, trivial, ?_⟩
    intro n hn
    exact mapLookup_mapSet_ne req.headers config.usernameHeader username n hn

/-- Witness for C9 (amended): under `cfgEx` the valid key `abc` resolves
to `alice`, the decision continues, and only `X-User-ID` is written. -/
theorem authenticate_frame_condition_witness :
    (authenticateRequest cfgEx reqNoCred (str "abc")).status
      = StatusType.Continue ∧
    (authenticateRequest cfgEx reqNoCred (str "abc")).req.path
      = reqNoCred.path ∧
    (authenticateRequest cfgEx reqNoCred (str "abc")).req.headers
      = mapSet reqNoCred.headers cfgEx.usernameHeader (str "alice") ∧
    ∀ n, ¬ n = cfgEx.usernameHeader →
      mapLookup (authenticateRequest cfgEx reqNoCred (str "abc")).req.headers n
        = mapLookup reqNoCred.headers n :=
  (authenticate_frame_condition cfgEx reqNoCred (str "abc") ksEx rfl).2
    (str "alice") (by decide)
